import Mathlib

/-!
Verification of the tdl sync pipeline (`pkg/sync/disk.go`).

This file gives a shallow embedding of the three Go files concatenated in
`pkg/sync/disk.go` — the disk monitor (`DiskMonitor`), the sync state and job
queue (`SyncState`, `FileJob`, `UpdateStats`, `ToJSON`) and the Telegram
checkpoint saver (`StateSaver.SaveState` / `StateSaver.LoadState`,
`indexOf`) — and proves or refutes the frozen specification claims about it.

Modelling conventions:
* Go strings are byte slices; they are modelled as `List Nat` (one `Nat` per
  byte).  Go's `len`, slicing and substring search are byte-based, and the
  in-scope code indexes strings by byte, so this is the faithful level.
* Go machine integers (`int`, `int64`) are modelled as `Int`; no in-scope
  operation is anywhere near overflow, and no claim concerns wrap-around.
* `time.Time` is modelled as wall-clock seconds plus nanoseconds
  (`GoTime`); `Format(time.RFC3339)` keeps whole seconds and drops the
  sub-second part, which is all the checkpoint code can observe.
* JSON numbers handled by `encoding/json` are idealised as exact rationals
  (`ℚ`), per the spec's "conceptual, not literal bytes" document shape;
  `float64` rounding (only relevant beyond 2^53) is out of scope.
* Concurrency artifacts (mutexes, atomics, channels, contexts) are erased:
  every claim is about the sequential data transformation each operation
  performs, and the Go code guards each such transformation with a single
  lock or atomic cell.
-/

deriving instance DecidableEq for Except

namespace TdlSync

/-- A Go string / byte slice: a list of byte values. -/
abbrev GoStr := List Nat

/-- UTF-8 encoding of a Unicode code point (as Go produces for `string(rune c)`
with a valid code point `c`). -/
def utf8Encode (c : Nat) : GoStr :=
  if c < 0x80 then [c]
  else if c < 0x800 then [0xC0 + c / 64, 0x80 + c % 64]
  else if c < 0x10000 then [0xE0 + c / 4096, 0x80 + c / 64 % 64, 0x80 + c % 64]
  else [0xF0 + c / 262144, 0x80 + c / 4096 % 64, 0x80 + c / 64 % 64, 0x80 + c % 64]

/-- Go `string(rune(v))` for an integer `v`: the UTF-8 bytes of the code point
`v`, or of U+FFFD when `v` is not a valid code point (negative, a surrogate,
or above U+10FFFF) — exactly Go's rune-conversion rule. -/
def runeStr (v : Int) : GoStr :=
  if v < 0 ∨ (0xD800 ≤ v ∧ v ≤ 0xDFFF) ∨ 0x10FFFF < v then utf8Encode 0xFFFD
  else utf8Encode v.toNat

/-- The UTF-8 bytes of a Lean string literal, used to transcribe the byte
content of Go string literals. -/
def strBytes (s : String) : GoStr :=
  s.data.flatMap (fun c => utf8Encode c.toNat)

/-- Decimal digit rendering with explicit recursion fuel (structural, so
the kernel can evaluate it; fuel `n + 1` always suffices since `n / 10 < n`
for `n ≥ 10`). -/
def natDecAux : Nat → Nat → GoStr
  | _, 0 => []
  | n, fuel + 1 =>
    if n < 10 then [0x30 + n] else natDecAux (n / 10) fuel ++ [0x30 + n % 10]

/-- Decimal digit bytes of a natural number (ASCII `0x30`–`0x39`). -/
def natDecDigits (n : Nat) : GoStr := natDecAux n (n + 1)

/-- Decimal representation of an integer, as ASCII bytes (with a leading
`-` for negatives) — the bytes `%d` / `strconv.Itoa` would produce. -/
def decimalBytes (v : Int) : GoStr :=
  if v < 0 then 0x2D :: natDecDigits (-v).toNat else natDecDigits v.toNat

/-- Go `time.Time`, reduced to what the checkpoint code can observe: wall
clock seconds since the epoch and the sub-second nanoseconds.  The zero
value is `⟨0, 0⟩`. -/
structure GoTime where
  sec : Int
  nsec : Nat
deriving DecidableEq

/-! ## Disk monitor (`DiskMonitor`, disk.go lines 12–128) -/

/-- The fields of Go's `DiskMonitor` that its tick loop reads and writes
(`downloadDir` and `checkInterval` only select what is scanned and when, so
they are not part of the state). -/
structure DiskMonitor where
  maxBytes : Int
  currentBytes : Int
  paused : Bool
deriving DecidableEq

/-- The `NewDiskMonitor`: `maxBytes = maxGB * 1024^3`; `currentBytes` and
`paused` start at their zero values. -/
def NewDiskMonitor (maxGB : Int) : DiskMonitor :=
  { maxBytes := maxGB * 1024 * 1024 * 1024, currentBytes := 0, paused := false }

/-- A staging-directory tree as `filepath.Walk` sees it: a regular file with
its size, a directory with entries, or an entry whose visit reports an error
(unreadable / unstatable), which the walk callback skips (`return nil`). -/
inductive FsEntry where
  | file (size : Int)
  | dir (entries : List FsEntry)
  | errEntry

mutual

/-- Total size accumulated by the `filepath.Walk` callback in
`calculateDiskUsage`: regular files contribute their size, directories
contribute only their children (`info.IsDir()` is skipped), and erroring
entries are skipped (`return nil // Skip errors`). -/
def walkSum : FsEntry → Int
  | .file s => s
  | .errEntry => 0
  | .dir es => walkSumList es

/-- Sum of `walkSum` over a directory's entries. -/
def walkSumList : List FsEntry → Int
  | [] => 0
  | e :: es => walkSum e + walkSumList es

end

/-- The `DiskMonitor.calculateDiskUsage` on a staging directory (`none` = the
directory does not exist, in which case `filepath.Walk` reports the lstat
error to the callback, which skips it): since the callback swallows every
error, the walk always succeeds and the computed total is stored. -/
def calculateDiskUsage (root : Option FsEntry) : Except Unit Int :=
  .ok (match root with
       | none => 0
       | some t => walkSum t)

/-- One iteration of the `ticker.C` arm of `DiskMonitor.Start` (disk.go lines
44–65), taking the result of `calculateDiskUsage` as input: on error the
iteration `continue`s leaving the state untouched; on success the scanned
total is stored, then the pause flag is set when over budget and not yet
paused, and cleared when within budget and paused. -/
def tick (d : DiskMonitor) (scan : Except Unit Int) : DiskMonitor :=
  match scan with
  | .error _ => d
  | .ok b =>
    let d' : DiskMonitor := { d with currentBytes := b }
    if d'.currentBytes > d'.maxBytes then
      if !d'.paused then { d' with paused := true } else d'
    else
      if d'.paused then { d' with paused := false } else d'

/-- Whether a tick emits the "Pausing downloads" transition (the
`paused.Store(true)` branch). -/
def pauseEventOccurs (d : DiskMonitor) (scan : Except Unit Int) : Bool :=
  match scan with
  | .error _ => false
  | .ok b => decide (d.maxBytes < b) && !d.paused

/-- Whether a tick emits the "Resuming downloads" transition (the
`paused.Store(false)` branch). -/
def resumeEventOccurs (d : DiskMonitor) (scan : Except Unit Int) : Bool :=
  match scan with
  | .error _ => false
  | .ok b => decide (b ≤ d.maxBytes) && d.paused

/-- Run a sequence of tick iterations. -/
def tickRun (d : DiskMonitor) : List (Except Unit Int) → DiskMonitor
  | [] => d
  | s :: t => tickRun (tick d s) t

/-- Number of pause transitions emitted along a run of ticks. -/
def pauseEvents (d : DiskMonitor) : List (Except Unit Int) → Nat
  | [] => 0
  | s :: t => (if pauseEventOccurs d s then 1 else 0) + pauseEvents (tick d s) t

/-- Number of upward crossings of the budget `M` in a list of successive
successful scan readings, given the previous effective reading `prev`: a
crossing is a reading above `M` whose predecessor was at or below `M`. -/
def upCrossingsAfter (M prev : Int) : List Int → Nat
  | [] => 0
  | b :: t => (if M < b ∧ prev ≤ M then 1 else 0) + upCrossingsAfter M b t

/-- Upward crossings of budget `M` in a reading sequence that starts from the
unpaused state (so a first reading above `M` is itself a crossing). -/
def upCrossings (M : Int) (l : List Int) : Nat :=
  upCrossingsAfter M M l

/-! ## Sync state (`FileState`, `FileJob`, `SyncState`, disk.go lines 137–226) -/

/-- The `FileState`: the state of a file in the sync pipeline. -/
inductive FileState where
  | StateQueued | StateDownloading | StateDownloaded | StateUploading
  | StateUploaded | StateCleaned | StateFailed
deriving DecidableEq

/-- The `FileJob`: a file being processed through the sync pipeline (the `Error`
field, a Go `error`, is irrelevant to every in-scope operation and omitted). -/
structure FileJob where
  MessageID : Int
  FileName : GoStr
  FilePath : GoStr
  FileSize : Int
  State : FileState
  RetryCount : Int
  QueuedAt : GoTime
  CompletedAt : GoTime
deriving DecidableEq

/-- The `SyncState`: the overall sync progress (the `sync.RWMutex` field is a
concurrency artifact and omitted; every mutation below is lock-guarded in
the source). -/
structure SyncState where
  ChannelID : Int
  ChannelName : GoStr
  LastMessageID : Int
  TotalFiles : Int
  Downloaded : Int
  Uploaded : Int
  Cleaned : Int
  Failed : Int
  TotalSizeBytes : Int
  StartTime : GoTime
  LastUpdateTime : GoTime
  Status : GoStr
deriving DecidableEq

/-- The `SyncState.UpdateStats` (disk.go lines 182–199): increment the counter
selected by the job's state (states other than `Downloaded`, `Uploaded`,
`Cleaned`, `Failed` increment nothing), then unconditionally overwrite
`LastMessageID` with the job's message id and refresh `LastUpdateTime`
(`time.Now()` is passed in as `now`). -/
def UpdateStats (s : SyncState) (job : FileJob) (now : GoTime) : SyncState :=
  let s' : SyncState :=
    match job.State with
    | .StateDownloaded => { s with Downloaded := s.Downloaded + 1 }
    | .StateUploaded => { s with Uploaded := s.Uploaded + 1 }
    | .StateCleaned => { s with Cleaned := s.Cleaned + 1 }
    | .StateFailed => { s with Failed := s.Failed + 1 }
    | _ => s
  { s' with LastMessageID := job.MessageID, LastUpdateTime := now }

/-- Fold `UpdateStats` over a list of completed jobs. -/
def runUpdates (s : SyncState) (now : GoTime) : List FileJob → SyncState
  | [] => s
  | j :: t => runUpdates (UpdateStats s j now) now t

/-- Number of jobs in a list whose state is `fs`. -/
def countState (fs : FileState) : List FileJob → Nat
  | [] => 0
  | j :: t => (if j.State = fs then 1 else 0) + countState fs t

/-! ## The string-built serializer `SyncState.ToJSON` (disk.go lines 209–226) -/

/-- Go integer division truncates toward zero (`Int.tdiv` has the same
convention). -/
def goIntDiv (a b : Int) : Int := Int.tdiv a b

/-- Model of `LastUpdateTime.Format(time.RFC3339)`: the format renders the
whole-second instant (sub-second precision is dropped — RFC3339's
`2006-01-02T15:04:05Z07:00` layout has no fractional seconds).  The model
identifies an RFC3339 string with the instant it denotes, rendering its
bytes as the decimal seconds; these bytes share with the real format every
property the proofs use: they contain no newline, backquote, quote or
control byte, and they determine (and are determined by) `t.sec`. -/
def rfc3339Bytes (t : GoTime) : GoStr := decimalBytes t.sec

/-- Literal chunks of `SyncState.ToJSON`'s concatenation, in source order. -/
def jA0 : GoStr := strBytes "\x7b\n  \"channel_id\": "

/-- Literal chunk of `ToJSON` after `channel_id`. -/
def jA1 : GoStr := strBytes ",\n  \"channel_name\": \""

/-- Literal chunk of `ToJSON` after `channel_name`. -/
def jA2 : GoStr := strBytes "\",\n  \"last_message_id\": "

/-- Literal chunk of `ToJSON` after `last_message_id`. -/
def jA3 : GoStr := strBytes ",\n  \"total_files\": "

/-- Literal chunk of `ToJSON` after `total_files`. -/
def jA4 : GoStr := strBytes ",\n  \"downloaded\": "

/-- Literal chunk of `ToJSON` after `downloaded`. -/
def jA5 : GoStr := strBytes ",\n  \"uploaded\": "

/-- Literal chunk of `ToJSON` after `uploaded`. -/
def jA6 : GoStr := strBytes ",\n  \"cleaned\": "

/-- Literal chunk of `ToJSON` after `cleaned`. -/
def jA7 : GoStr := strBytes ",\n  \"failed\": "

/-- Literal chunk of `ToJSON` after `failed`. -/
def jA8 : GoStr := strBytes ",\n  \"total_size_gb\": "

/-- Literal chunk of `ToJSON` after `total_size_gb`. -/
def jA9 : GoStr := strBytes ",\n  \"timestamp\": \""

/-- Literal chunk of `ToJSON` after `timestamp`. -/
def jA10 : GoStr := strBytes "\",\n  \"status\": \""

/-- Closing literal chunk of `ToJSON`. -/
def jA11 : GoStr := strBytes "\"\n\x7d"

/-- The `SyncState.ToJSON` (disk.go lines 209–226): the ad-hoc string-built
serializer.  Each numeric field is rendered with `string(rune(v))` — the
UTF-8 bytes of code point `v` — instead of a decimal rendering. -/
def SyncState.toJSON (s : SyncState) : GoStr :=
  jA0 ++ runeStr s.ChannelID
  ++ jA1 ++ s.ChannelName
  ++ jA2 ++ runeStr s.LastMessageID
  ++ jA3 ++ runeStr s.TotalFiles
  ++ jA4 ++ runeStr s.Downloaded
  ++ jA5 ++ runeStr s.Uploaded
  ++ jA6 ++ runeStr s.Cleaned
  ++ jA7 ++ runeStr s.Failed
  ++ jA8 ++ runeStr (goIntDiv s.TotalSizeBytes (1024 * 1024 * 1024))
  ++ jA9 ++ rfc3339Bytes s.LastUpdateTime
  ++ jA10 ++ s.Status
  ++ jA11

/-- The numeric fields serialized by `ToJSON` with `string(rune(v))`. -/
inductive JField where
  | channelId | lastMessageId | totalFiles | downloaded
  | uploaded | cleaned | failed | totalSizeGb
deriving DecidableEq

/-- The integer value `v` that `ToJSON` passes to `string(rune(·))` at a
given numeric field. -/
def jfieldVal (s : SyncState) : JField → Int
  | .channelId => s.ChannelID
  | .lastMessageId => s.LastMessageID
  | .totalFiles => s.TotalFiles
  | .downloaded => s.Downloaded
  | .uploaded => s.Uploaded
  | .cleaned => s.Cleaned
  | .failed => s.Failed
  | .totalSizeGb => goIntDiv s.TotalSizeBytes (1024 * 1024 * 1024)

/-- The bytes of `ToJSON`'s output that precede a numeric field's rendered
value (the field's position in the document). -/
def jfieldPre (s : SyncState) : JField → GoStr
  | .channelId => jA0
  | .lastMessageId => jA0 ++ runeStr s.ChannelID ++ jA1 ++ s.ChannelName ++ jA2
  | .totalFiles => jA0 ++ runeStr s.ChannelID ++ jA1 ++ s.ChannelName ++ jA2
      ++ runeStr s.LastMessageID ++ jA3
  | .downloaded => jA0 ++ runeStr s.ChannelID ++ jA1 ++ s.ChannelName ++ jA2
      ++ runeStr s.LastMessageID ++ jA3 ++ runeStr s.TotalFiles ++ jA4
  | .uploaded => jA0 ++ runeStr s.ChannelID ++ jA1 ++ s.ChannelName ++ jA2
      ++ runeStr s.LastMessageID ++ jA3 ++ runeStr s.TotalFiles ++ jA4
      ++ runeStr s.Downloaded ++ jA5
  | .cleaned => jA0 ++ runeStr s.ChannelID ++ jA1 ++ s.ChannelName ++ jA2
      ++ runeStr s.LastMessageID ++ jA3 ++ runeStr s.TotalFiles ++ jA4
      ++ runeStr s.Downloaded ++ jA5 ++ runeStr s.Uploaded ++ jA6
  | .failed => jA0 ++ runeStr s.ChannelID ++ jA1 ++ s.ChannelName ++ jA2
      ++ runeStr s.LastMessageID ++ jA3 ++ runeStr s.TotalFiles ++ jA4
      ++ runeStr s.Downloaded ++ jA5 ++ runeStr s.Uploaded ++ jA6
      ++ runeStr s.Cleaned ++ jA7
  | .totalSizeGb => jA0 ++ runeStr s.ChannelID ++ jA1 ++ s.ChannelName ++ jA2
      ++ runeStr s.LastMessageID ++ jA3 ++ runeStr s.TotalFiles ++ jA4
      ++ runeStr s.Downloaded ++ jA5 ++ runeStr s.Uploaded ++ jA6
      ++ runeStr s.Cleaned ++ jA7 ++ runeStr s.Failed ++ jA8

/-- The bytes of `ToJSON`'s output that follow a numeric field's rendered
value. -/
def jfieldSuf (s : SyncState) : JField → GoStr
  | .channelId => jA1 ++ s.ChannelName ++ jA2 ++ runeStr s.LastMessageID
      ++ jA3 ++ runeStr s.TotalFiles ++ jA4 ++ runeStr s.Downloaded
      ++ jA5 ++ runeStr s.Uploaded ++ jA6 ++ runeStr s.Cleaned
      ++ jA7 ++ runeStr s.Failed
      ++ jA8 ++ runeStr (goIntDiv s.TotalSizeBytes (1024 * 1024 * 1024))
      ++ jA9 ++ rfc3339Bytes s.LastUpdateTime ++ jA10 ++ s.Status ++ jA11
  | .lastMessageId => jA3 ++ runeStr s.TotalFiles ++ jA4 ++ runeStr s.Downloaded
      ++ jA5 ++ runeStr s.Uploaded ++ jA6 ++ runeStr s.Cleaned
      ++ jA7 ++ runeStr s.Failed
      ++ jA8 ++ runeStr (goIntDiv s.TotalSizeBytes (1024 * 1024 * 1024))
      ++ jA9 ++ rfc3339Bytes s.LastUpdateTime ++ jA10 ++ s.Status ++ jA11
  | .totalFiles => jA4 ++ runeStr s.Downloaded
      ++ jA5 ++ runeStr s.Uploaded ++ jA6 ++ runeStr s.Cleaned
      ++ jA7 ++ runeStr s.Failed
      ++ jA8 ++ runeStr (goIntDiv s.TotalSizeBytes (1024 * 1024 * 1024))
      ++ jA9 ++ rfc3339Bytes s.LastUpdateTime ++ jA10 ++ s.Status ++ jA11
  | .downloaded => jA5 ++ runeStr s.Uploaded ++ jA6 ++ runeStr s.Cleaned
      ++ jA7 ++ runeStr s.Failed
      ++ jA8 ++ runeStr (goIntDiv s.TotalSizeBytes (1024 * 1024 * 1024))
      ++ jA9 ++ rfc3339Bytes s.LastUpdateTime ++ jA10 ++ s.Status ++ jA11
  | .uploaded => jA6 ++ runeStr s.Cleaned
      ++ jA7 ++ runeStr s.Failed
      ++ jA8 ++ runeStr (goIntDiv s.TotalSizeBytes (1024 * 1024 * 1024))
      ++ jA9 ++ rfc3339Bytes s.LastUpdateTime ++ jA10 ++ s.Status ++ jA11
  | .cleaned => jA7 ++ runeStr s.Failed
      ++ jA8 ++ runeStr (goIntDiv s.TotalSizeBytes (1024 * 1024 * 1024))
      ++ jA9 ++ rfc3339Bytes s.LastUpdateTime ++ jA10 ++ s.Status ++ jA11
  | .failed => jA8 ++ runeStr (goIntDiv s.TotalSizeBytes (1024 * 1024 * 1024))
      ++ jA9 ++ rfc3339Bytes s.LastUpdateTime ++ jA10 ++ s.Status ++ jA11
  | .totalSizeGb => jA9 ++ rfc3339Bytes s.LastUpdateTime ++ jA10 ++ s.Status ++ jA11

/-! ## Substring search (`indexOf`, disk.go lines 508–515) and the
checkpoint message format (`StateSaver`, disk.go lines 313–499) -/

/-- Position of the first `i` (scanned in increasing order, exactly the loop
`for i := 0; i <= len(s)-len(substr); i++`) at which `sub` occurs in the
list, if any.  `List.isPrefixOf` at position `i` is Go's
`s[i:i+len(substr)] == substr`, and is false whenever fewer than
`len(substr)` bytes remain — positions the Go loop does not visit. -/
def firstMatch (sub : GoStr) : GoStr → Option Nat
  | [] => if sub.isPrefixOf ([] : GoStr) then some 0 else none
  | a :: t => if sub.isPrefixOf (a :: t) then some 0 else (firstMatch sub t).map (· + 1)

/-- The repository's `indexOf` helper (disk.go lines 508–515): index of the
first occurrence of `sub` in `s`, or `-1`. -/
def indexOf (s sub : GoStr) : Int :=
  match firstMatch sub s with
  | some i => (i : Int)
  | none => -1

/-- Bytes of the opening code-block marker `"```json\n"`. -/
def mJson : GoStr := strBytes "```json\n"

/-- Bytes of the closing code-block marker `"\n```"`. -/
def mEnd : GoStr := strBytes "\n```"

/-- Outcomes of the JSON-extraction fragment of `LoadState`. -/
inductive ExtractErr where
  | panicSlice | invalidFormat
deriving DecidableEq

/-- The JSON-extraction fragment of `StateSaver.LoadState` (disk.go lines
457–467):

```
start := indexOf(text, "```json\n")
end := indexOf(text[start+8:], "\n```")
if start == -1 || end == -1 { return nil, fmt.Errorf("invalid state message format") }
jsonStr := text[start+8 : start+8+end]
```

The slice `text[start+8:]` is evaluated before `start` is checked; since
`indexOf` returns at least `-1`, the low bound `start+8` is at least `7`,
and Go panics when it exceeds `len(text)` (`.error .panicSlice`).  The later
slice `text[start+8 : start+8+end]` is only reached with `end ≥ 0`, and then
`start+8+end ≤ len(text)` always holds, so it cannot panic. -/
def extractJson (text : GoStr) : Except ExtractErr GoStr :=
  let start := indexOf text mJson
  if (text.length : Int) < start + 8 then .error .panicSlice
  else
    let tail := List.drop (start + 8).toNat text
    let e := indexOf tail mEnd
    if start = -1 ∨ e = -1 then .error .invalidFormat
    else .ok (List.take e.toNat tail)

/-- The checkpoint document written by `StateSaver.SaveState` (disk.go lines
375–388): the `map[string]interface{}` handed to `json.MarshalIndent`,
with JSON numbers idealised as exact rationals and the RFC3339 `timestamp`
string identified with the whole-second instant it denotes. -/
structure StateDoc where
  channel_id : ℚ
  channel_name : GoStr
  last_message_id : ℚ
  total_files : ℚ
  downloaded : ℚ
  uploaded : ℚ
  cleaned : ℚ
  failed : ℚ
  total_size_gb : ℚ
  timestamp : Int
  status : GoStr
  elapsed_minutes : ℚ
deriving DecidableEq

/-- The document `SaveState` builds from a state snapshot (`now` is the
wall-clock second at which `SaveState` runs, used only for
`elapsed_minutes := time.Since(StartTime).Minutes()`).
`total_size_gb` is `float64(TotalSizeBytes) / 1024³` and `timestamp` is
`LastUpdateTime.Format(time.RFC3339)`, which keeps whole seconds only. -/
def saveDoc (s : SyncState) (now : Int) : StateDoc where
  channel_id := (s.ChannelID : ℚ)
  channel_name := s.ChannelName
  last_message_id := (s.LastMessageID : ℚ)
  total_files := (s.TotalFiles : ℚ)
  downloaded := (s.Downloaded : ℚ)
  uploaded := (s.Uploaded : ℚ)
  cleaned := (s.Cleaned : ℚ)
  failed := (s.Failed : ℚ)
  total_size_gb := (s.TotalSizeBytes : ℚ) / (1024 * 1024 * 1024)
  timestamp := s.LastUpdateTime.sec
  status := s.Status
  elapsed_minutes := ((now - s.StartTime.sec : Int) : ℚ) / 60

/-- Go's conversion of a `float64` to an integer type truncates toward
zero. -/
def goTrunc (q : ℚ) : Int := if q < 0 then ⌈q⌉ else ⌊q⌋

/-- The `SyncState` literal `LoadState` reconstructs from a parsed document
(disk.go lines 475–489): every numeric field goes through a `float64` type
assertion and an integer conversion; `TotalSizeBytes` is recovered as
`int64(total_size_gb * 1024³)`; `LastUpdateTime` is parsed from the RFC3339
`timestamp` (whole seconds, nanoseconds zero); `StartTime`, and every field
not listed in the literal, keeps its Go zero value. -/
def loadDoc (d : StateDoc) : SyncState where
  ChannelID := goTrunc d.channel_id
  ChannelName := d.channel_name
  LastMessageID := goTrunc d.last_message_id
  TotalFiles := goTrunc d.total_files
  Downloaded := goTrunc d.downloaded
  Uploaded := goTrunc d.uploaded
  Cleaned := goTrunc d.cleaned
  Failed := goTrunc d.failed
  TotalSizeBytes := goTrunc (d.total_size_gb * (1024 * 1024 * 1024))
  StartTime := ⟨0, 0⟩
  LastUpdateTime := ⟨d.timestamp, 0⟩
  Status := d.status

/-- Lower-case hex digit byte, as `encoding/json` uses in `\u00XX` escapes. -/
def hexDigitByte (d : Nat) : Nat := if d < 10 then 0x30 + d else 0x61 + (d - 10)

/-- The `encoding/json` string escaping of one byte (with the default HTML
escaping of `<`, `>`, `&`): quote, backslash, newline, carriage return and
tab get two-byte escapes, other control bytes and the HTML trio get
`\u00XX`, everything else passes through. -/
def escapeByte (b : Nat) : GoStr :=
  if b = 0x22 then [0x5C, 0x22]
  else if b = 0x5C then [0x5C, 0x5C]
  else if b = 0x0A then [0x5C, 0x6E]
  else if b = 0x0D then [0x5C, 0x72]
  else if b = 0x09 then [0x5C, 0x74]
  else if b < 0x20 ∨ b = 0x3C ∨ b = 0x3E ∨ b = 0x26 then
    [0x5C, 0x75, 0x30, 0x30, hexDigitByte (b / 16), hexDigitByte (b % 16)]
  else [b]

/-- The `encoding/json` escaping of a byte string's content. -/
def escapeJSON (s : GoStr) : GoStr := s.flatMap escapeByte

/-- A JSON string literal: quote, escaped content, quote. -/
def jstrBytes (s : GoStr) : GoStr := 0x22 :: (escapeJSON s ++ [0x22])

/-- First `k` decimal digit bytes of the fractional part of `q ∈ [0, 1)`. -/
def fracDigitBytes : Nat → ℚ → GoStr
  | 0, _ => []
  | k + 1, q => (0x30 + (⌊q * 10⌋).toNat) :: fracDigitBytes k (q * 10 - ⌊q * 10⌋)

/-- Decimal rendering of a non-negative rational: integer digits, then (for
non-integers) a point and a fixed number of fractional digits. -/
def printQnn (q : ℚ) : GoStr :=
  natDecDigits ⌊q⌋.toNat ++ (if q.den = 1 then [] else 0x2E :: fracDigitBytes 17 (q - ⌊q⌋))

/-- Model of `encoding/json`'s rendering of a JSON number (a Go `float64`
idealised as an exact rational): optional minus sign, then decimal digits
with an optional point.  The real encoder prints the shortest decimal that
round-trips the `float64`; the proofs use only that the rendering consists
of sign, digit and point bytes. -/
def printQ (q : ℚ) : GoStr :=
  if q < 0 then 0x2D :: printQnn (-q) else printQnn q

/-- Model of `json.MarshalIndent(doc, "", "  ")` for the fixed-shape
checkpoint document: one `"key": value` line per entry, keys in Go's sorted
map-key order, two-space indent.  String values (including the RFC3339
`timestamp`) are escaped JSON string literals, numeric values decimal
renderings.  The round-trip theorems treat `json.Unmarshal` as this
rendering's inverse (a hypothesis on the `unmarshal` oracle); the printed
bytes themselves matter only through their code-block-safety: no newline
byte is ever followed by a backquote byte. -/
def printDoc (d : StateDoc) : GoStr :=
  strBytes "\x7b\n  \"channel_id\": " ++ printQ d.channel_id
  ++ strBytes ",\n  \"channel_name\": " ++ jstrBytes d.channel_name
  ++ strBytes ",\n  \"cleaned\": " ++ printQ d.cleaned
  ++ strBytes ",\n  \"downloaded\": " ++ printQ d.downloaded
  ++ strBytes ",\n  \"elapsed_minutes\": " ++ printQ d.elapsed_minutes
  ++ strBytes ",\n  \"failed\": " ++ printQ d.failed
  ++ strBytes ",\n  \"last_message_id\": " ++ printQ d.last_message_id
  ++ strBytes ",\n  \"status\": " ++ jstrBytes d.status
  ++ strBytes ",\n  \"timestamp\": " ++ jstrBytes (rfc3339Bytes ⟨d.timestamp, 0⟩)
  ++ strBytes ",\n  \"total_files\": " ++ printQ d.total_files
  ++ strBytes ",\n  \"total_size_gb\": " ++ printQ d.total_size_gb
  ++ strBytes ",\n  \"uploaded\": " ++ printQ d.uploaded
  ++ strBytes "\n\x7d"

/-- Bytes of the Go constant holding the state-message header
`"🔄 TDL Sync State"` (disk.go line 314). -/
def stateMsgHeader : GoStr := strBytes "🔄 TDL Sync State"

/-- The message text `SaveState` sends (disk.go line 395):
`fmt.Sprintf("%s\n\n```json\n%s\n```\n\n📊 Progress: …", header, payload, …)`.
`progressTail` stands for the rendered progress/size/runtime report after
the second `\n\n`; `LoadState` never parses past the closing marker, so it
is kept as a parameter. -/
def buildStateMessage (payload progressTail : GoStr) : GoStr :=
  stateMsgHeader ++ strBytes "\n\n" ++ mJson ++ payload
    ++ mEnd ++ (strBytes "\n\n" ++ progressTail)

/-- The full observable output of `StateSaver.SaveState`: the checkpoint
document for the current snapshot, marshalled and wrapped in the message
format. -/
def SaveStateText (s : SyncState) (now : Int) (progressTail : GoStr) : GoStr :=
  buildStateMessage (printDoc (saveDoc s now)) progressTail

/-- The 29 bytes of a state message before the payload: header, blank line,
opening marker. -/
def stateMsgLead : GoStr := stateMsgHeader ++ strBytes "\n\n" ++ mJson

/-- A message returned by `MessagesSearch`: either a `*tg.Message` with its
text, or a message of some other concrete type (the `msgs.Messages[0].(*tg.Message)`
assertion fails). -/
inductive TgMsg where
  | msg (text : GoStr)
  | otherMsgType

/-- The shape of the `MessagesSearch` reply: a `*tg.MessagesMessages` with
its message list, or one of the other reply variants (which fall through
`switch msgs := messages.(type)` to the final `return`). -/
inductive SearchReply where
  | messages (msgs : List TgMsg)
  | otherKind

/-- The error outcomes of `StateSaver.LoadState` past the transport stage
(the self-user fetch and the search call, whose wrapped transport errors no
claim concerns). -/
inductive LoadErr where
  | noSavedState | unexpectedMessageType | panicSlice | invalidFormat | parseFailed
deriving DecidableEq

/-- The `StateSaver.LoadState` (disk.go lines 444–499) after the search call:
an empty result list, or a reply of an unexpected kind, yields the
`"no saved state found"` error; a first message of the wrong concrete type
yields `"unexpected message type"`; otherwise the JSON is extracted from the
code block and parsed.  `unmarshal` is the `json.Unmarshal` +
type-assertion oracle: `none` models the `"failed to parse state JSON"`
branch, `some d` a successful parse into the document's typed fields. -/
def LoadState (unmarshal : GoStr → Option StateDoc) (reply : SearchReply) :
    Except LoadErr SyncState :=
  match reply with
  | .otherKind => .error .noSavedState
  | .messages [] => .error .noSavedState
  | .messages (.otherMsgType :: _) => .error .unexpectedMessageType
  | .messages (.msg text :: _) =>
    match extractJson text with
    | .error .panicSlice => .error .panicSlice
    | .error .invalidFormat => .error .invalidFormat
    | .ok jsonStr =>
      match unmarshal jsonStr with
      | none => .error .parseFailed
      | some d => .ok (loadDoc d)

/-! ## Predicates and sample inputs used by the claim statements -/

/-- The spec invariant `downloaded ≥ uploaded ≥ cleaned`. -/
def Inv (s : SyncState) : Prop :=
  s.Uploaded ≤ s.Downloaded ∧ s.Cleaned ≤ s.Uploaded

/-- A batch of completion events is pipeline-ordered relative to a starting
state when, counting the whole batch, uploads (with the starting state's
slack) do not outrun downloads, nor cleanups uploads.  Requiring this of
every prefix of an event sequence says the events are an interleaving of
per-item download→upload→cleanup orders. -/
def pipelineOrdered (s : SyncState) (jobs : List FileJob) : Prop :=
  s.Uploaded + (countState .StateUploaded jobs : Int)
      ≤ s.Downloaded + (countState .StateDownloaded jobs : Int)
    ∧ s.Cleaned + (countState .StateCleaned jobs : Int)
      ≤ s.Uploaded + (countState .StateUploaded jobs : Int)

/-- No newline byte is immediately followed by a backquote byte.  This holds
of every marshalled checkpoint document (each newline in the indented
rendering is followed by a space or the closing brace), and it is what makes
the `"\n```"` scan find the real closing marker. -/
def nlSafe (l : GoStr) : Prop := ∀ j, ¬ ([10, 96] <+: l.drop j)

/-- An `unmarshal` oracle that inverts `printDoc` at the single document `d`
(used to discharge the round-trip hypotheses at concrete inputs). -/
def invUnmarshal (d : StateDoc) : GoStr → Option StateDoc :=
  fun bs => if bs = printDoc d then some d else none

/-- An all-zero sync state (every Go zero value). -/
def zeroState : SyncState where
  ChannelID := 0
  ChannelName := []
  LastMessageID := 0
  TotalFiles := 0
  Downloaded := 0
  Uploaded := 0
  Cleaned := 0
  Failed := 0
  TotalSizeBytes := 0
  StartTime := ⟨0, 0⟩
  LastUpdateTime := ⟨0, 0⟩
  Status := []

/-- The spec invariant is a decidable proposition. -/
instance decInv (s : SyncState) : Decidable (Inv s) :=
  inferInstanceAs (Decidable (_ ∧ _))

/-- Pipeline-orderedness of a batch is a decidable proposition. -/
instance decPipelineOrdered (s : SyncState) (jobs : List FileJob) :
    Decidable (pipelineOrdered s jobs) :=
  inferInstanceAs (Decidable (_ ∧ _))

/-- A job with the given message id and state (other fields zero). -/
def mkJob (id : Int) (st : FileState) : FileJob :=
  ⟨id, [], [], 0, st, 0, ⟨0, 0⟩, ⟨0, 0⟩⟩

/-- Sample state for the round-trip claims: a nonzero `StartTime` (the field
`LoadState` never reconstructs) and simple values elsewhere. -/
def c1State : SyncState :=
  { zeroState with
      ChannelID := 7
      ChannelName := strBytes "ch"
      LastMessageID := 42
      TotalFiles := 10
      Downloaded := 3
      Uploaded := 2
      Cleaned := 1
      TotalSizeBytes := 1073741824
      StartTime := ⟨60, 0⟩
      LastUpdateTime := ⟨100, 0⟩
      Status := strBytes "running" }

/-- Sample state for the monotonicity counterexample: position already 10. -/
def c3State : SyncState := { zeroState with LastMessageID := 10 }

/-- A pipeline-ordered sample batch. -/
def c4Jobs : List FileJob :=
  [mkJob 1 .StateDownloaded, mkJob 1 .StateUploaded, mkJob 1 .StateCleaned]

/-! ## Library lemmas about substring matching -/

/-- A pattern no longer than `x` occurs at the start of `x ++ y` iff it
occurs at the start of `x`. -/
lemma prefix_append_of_length_le {sub x y : GoStr} (h : sub.length ≤ x.length) :
    sub <+: x ++ y ↔ sub <+: x := by
  constructor
  · intro hp
    rw [List.prefix_iff_eq_take] at hp ⊢
    rwa [List.take_append_eq_append_take, Nat.sub_eq_zero_of_le h, List.take_zero,
      List.append_nil] at hp
  · intro hp
    exact hp.trans (List.prefix_append x y)

/-- The `firstMatch` finds exactly the least occurrence position. -/
lemma firstMatch_some_iff {sub s : GoStr} {i : Nat} :
    firstMatch sub s = some i ↔ sub <+: s.drop i ∧ ∀ j, j < i → ¬ sub <+: s.drop j := by
  induction s generalizing i with
  | nil =>
    simp only [firstMatch, List.drop_nil]
    by_cases hp : sub <+: ([] : GoStr)
    · rw [if_pos (List.isPrefixOf_iff_prefix.mpr hp)]
      constructor
      · intro h
        injection h with h
        subst h
        exact ⟨hp, by omega⟩
      · rintro ⟨-, h2⟩
        rcases Nat.eq_zero_or_pos i with rfl | hi
        · rfl
        · exact absurd hp (h2 0 hi)
    · rw [if_neg (by simpa [List.isPrefixOf_iff_prefix] using hp)]
      simp [hp]
  | cons a t ih =>
    simp only [firstMatch]
    by_cases hp : sub <+: (a :: t)
    · rw [if_pos (List.isPrefixOf_iff_prefix.mpr hp)]
      constructor
      · intro h
        injection h with h
        subst h
        exact ⟨by simpa using hp, by omega⟩
      · rintro ⟨-, h2⟩
        rcases Nat.eq_zero_or_pos i with rfl | hi
        · rfl
        · exact absurd (by simpa using hp) (h2 0 hi)
    · rw [if_neg (by simpa [List.isPrefixOf_iff_prefix] using hp)]
      constructor
      · intro h
        rcases Option.map_eq_some'.mp h with ⟨i', hi', rfl⟩
        rcases ih.mp hi' with ⟨h1, h2⟩
        refine ⟨by simpa using h1, ?_⟩
        intro j hj
        match j with
        | 0 => simpa using hp
        | k + 1 =>
          simpa using h2 k (by omega)
      · rintro ⟨h1, h2⟩
        match i with
        | 0 => exact absurd (by simpa using h1) hp
        | k + 1 =>
          have : firstMatch sub t = some k := by
            refine ih.mpr ⟨by simpa using h1, ?_⟩
            intro j hj
            have := h2 (j + 1) (by omega)
            simpa using this
          simp [this]

/-- The `firstMatch` returns `none` exactly when the pattern occurs nowhere. -/
lemma firstMatch_none_iff {sub s : GoStr} :
    firstMatch sub s = none ↔ ∀ j, ¬ sub <+: s.drop j := by
  induction s with
  | nil =>
    simp only [firstMatch, List.drop_nil]
    by_cases hp : sub <+: ([] : GoStr)
    · rw [if_pos (List.isPrefixOf_iff_prefix.mpr hp)]
      constructor
      · intro h
        exact absurd h (by simp)
      · intro h
        exact absurd hp (h 0)
    · rw [if_neg (by simpa [List.isPrefixOf_iff_prefix] using hp)]
      simp [hp]
  | cons a t ih =>
    simp only [firstMatch]
    by_cases hp : sub <+: (a :: t)
    · rw [if_pos (List.isPrefixOf_iff_prefix.mpr hp)]
      constructor
      · intro h
        exact absurd h (by simp)
      · intro h
        exact absurd (show sub <+: (a :: t).drop 0 by simpa using hp) (h 0)
    · rw [if_neg (by simpa [List.isPrefixOf_iff_prefix] using hp)]
      rw [Option.map_eq_none', ih]
      constructor
      · intro h j
        match j with
        | 0 => simpa using hp
        | k + 1 => simpa using h k
      · intro h j
        simpa using h (j + 1)

/-- The `indexOf` returns `-1` exactly when the pattern occurs nowhere. -/
lemma indexOf_eq_neg_one_iff {s sub : GoStr} :
    indexOf s sub = -1 ↔ firstMatch sub s = none := by
  unfold indexOf
  rcases h : firstMatch sub s with - | i <;> simp [h]

/-- The `indexOf` at a found match. -/
lemma indexOf_of_firstMatch {s sub : GoStr} {i : Nat} (h : firstMatch sub s = some i) :
    indexOf s sub = (i : Int) := by
  simp [indexOf, h]

/-! ## Disk monitor lemmas and claims C7, C8, C9 -/

/-- A successful tick stores the scanned total and leaves the monitor
paused exactly when the new total exceeds the budget. -/
lemma tick_ok (d : DiskMonitor) (b : Int) :
    tick d (.ok b) = { d with currentBytes := b, paused := decide (d.maxBytes < b) } := by
  rcases d with ⟨M, c, p⟩
  by_cases hb : M < b <;> cases p <;> simp [tick, hb]

/-- Pause transitions along a run of successful scans are exactly the upward
crossings of the budget, provided the starting pause flag agrees with the
previous effective reading. -/
lemma pauseEvents_run (M : Int) (l : List Int) : ∀ prev c : Int,
    pauseEvents ⟨M, c, decide (M < prev)⟩ (l.map .ok) = upCrossingsAfter M prev l := by
  induction l with
  | nil =>
    intro prev c
    simp [pauseEvents, upCrossingsAfter]
  | cons b t ih =>
    intro prev c
    simp only [List.map_cons, pauseEvents, upCrossingsAfter, pauseEventOccurs, tick_ok]
    rw [ih b b]
    congr 1
    by_cases h1 : M < b <;> by_cases h2 : M < prev
    · simp [h1, h2, not_le.mpr h2]
    · simp [h1, h2, not_lt.mp h2]
    · simp [h1, h2]
    · simp [h1, h2]

/-- Claim C7: a successful recomputation leaves `paused` true exactly when
the observed `currentBytes` exceeds `maxBytes` (so an upward observation
while unpaused sets it, a repeated high observation while paused changes
nothing, and an observation at or below the budget clears it); along any run
of successful scans starting unpaused, the number of pause transitions
equals the number of upward crossings of the budget; and the spec's
example — budget 10, readings driven 8→12 — pauses exactly once and stays
paused until a reading at most 10 is observed. -/
theorem claim_C7 :
    (∀ (d : DiskMonitor) (b : Int),
        tick d (.ok b) = { d with currentBytes := b, paused := decide (d.maxBytes < b) })
    ∧ (∀ (M c : Int) (l : List Int),
        pauseEvents ⟨M, c, false⟩ (l.map .ok) = upCrossings M l)
    ∧ pauseEvents ⟨10, 8, false⟩ ([12, 12, 11, 9].map .ok) = 1
    ∧ (tickRun ⟨10, 8, false⟩ ([12, 12, 11].map .ok)).paused = true
    ∧ (tickRun ⟨10, 8, false⟩ ([12, 12, 11, 9].map .ok)).paused = false := by
  refine ⟨tick_ok, fun M c l => ?_, by decide, by decide, by decide⟩
  have h : (false : Bool) = decide (M < M) := by simp
  rw [upCrossings, h, pauseEvents_run]

/-- Claim C8: a tick whose scan fails leaves the whole monitor state — in
particular `currentBytes` and `paused` — untouched and emits no pause or
resume transition (the loop logs and `continue`s). -/
theorem claim_C8 :
    ∀ (d : DiskMonitor) (e : Unit),
      tick d (.error e) = d
      ∧ (tick d (.error e)).currentBytes = d.currentBytes
      ∧ (tick d (.error e)).paused = d.paused
      ∧ pauseEventOccurs d (.error e) = false
      ∧ resumeEventOccurs d (.error e) = false :=
  fun _ _ => ⟨rfl, rfl, rfl, rfl, rfl⟩

/-- Claim C9: scanning a missing staging directory or an empty one yields
`currentBytes = 0`; erroring entries contribute nothing (they are skipped,
not propagated); and a scan never fails, whatever the tree. -/
theorem claim_C9 :
    calculateDiskUsage none = .ok 0
    ∧ calculateDiskUsage (some (.dir [])) = .ok 0
    ∧ (∀ es, walkSum (.dir (.errEntry :: es)) = walkSum (.dir es))
    ∧ (∀ root, ∃ v, calculateDiskUsage root = .ok v) := by
  refine ⟨rfl, rfl, fun es => ?_, fun root => ⟨_, rfl⟩⟩
  simp [walkSum, walkSumList]

/-! ## Sync-state claims C3 and C4 -/

/-- Claim C3 (amended): `UpdateStats` overwrites `LastMessageID` with the
job's message id unconditionally — whatever the job's state, terminal or
not — so the stored position is simply the last updated job's id and may
decrease. -/
theorem claim_C3 :
    ∀ (s : SyncState) (job : FileJob) (now : GoTime),
      (UpdateStats s job now).LastMessageID = job.MessageID := by
  intro s job now
  rcases job with ⟨id, fn, fp, fs, st, rc, qa, ca⟩
  cases st <;> rfl

/-- Claim C3 counterexample: from a state whose position is 10, updating
with a job in the non-terminal `StateDownloaded` state and message id 5
changes the position and decreases it. -/
theorem claim_C3_counterexample :
    (UpdateStats c3State (mkJob 5 .StateDownloaded) ⟨0, 0⟩).LastMessageID
        < c3State.LastMessageID
    ∧ (mkJob 5 .StateDownloaded).State ≠ .StateCleaned
    ∧ (mkJob 5 .StateDownloaded).State ≠ .StateFailed
    ∧ (UpdateStats c3State (mkJob 5 .StateDownloaded) ⟨0, 0⟩).LastMessageID
        ≠ c3State.LastMessageID := by
  decide

/-- Each `UpdateStats` call adds one to the counter matching the job's
state and leaves the other counters alone. -/
lemma updateStats_counts (s : SyncState) (job : FileJob) (now : GoTime) :
    (UpdateStats s job now).Downloaded
        = s.Downloaded + (if job.State = .StateDownloaded then 1 else 0)
    ∧ (UpdateStats s job now).Uploaded
        = s.Uploaded + (if job.State = .StateUploaded then 1 else 0)
    ∧ (UpdateStats s job now).Cleaned
        = s.Cleaned + (if job.State = .StateCleaned then 1 else 0) := by
  rcases job with ⟨id, fn, fp, fs, st, rc, qa, ca⟩
  cases st <;> simp [UpdateStats]

/-- Counters after a batch of updates: starting value plus the number of
events of the matching state. -/
lemma runUpdates_counters (now : GoTime) (l : List FileJob) : ∀ s : SyncState,
    (runUpdates s now l).Downloaded
        = s.Downloaded + (countState .StateDownloaded l : Int)
    ∧ (runUpdates s now l).Uploaded
        = s.Uploaded + (countState .StateUploaded l : Int)
    ∧ (runUpdates s now l).Cleaned
        = s.Cleaned + (countState .StateCleaned l : Int) := by
  induction l with
  | nil =>
    intro s
    simp [runUpdates, countState]
  | cons j t ih =>
    intro s
    obtain ⟨h1, h2, h3⟩ := ih (UpdateStats s j now)
    obtain ⟨g1, g2, g3⟩ := updateStats_counts s j now
    simp only [runUpdates, countState]
    refine ⟨?_, ?_, ?_⟩
    · rw [h1, g1]
      push_cast
      by_cases hj : j.State = .StateDownloaded
      · simp only [hj, if_pos rfl, if_true]; ring
      · simp only [hj, if_false, if_neg hj]; ring
    · rw [h2, g2]
      push_cast
      by_cases hj : j.State = .StateUploaded
      · simp only [hj, if_pos rfl, if_true]; ring
      · simp only [hj, if_false, if_neg hj]; ring
    · rw [h3, g3]
      push_cast
      by_cases hj : j.State = .StateCleaned
      · simp only [hj, if_pos rfl, if_true]; ring
      · simp only [hj, if_false, if_neg hj]; ring

/-- Claim C4 (amended): starting from a state satisfying
`Downloaded ≥ Uploaded ≥ Cleaned`, the invariant holds after every
`UpdateStats` call of an event sequence provided the sequence is
pipeline-ordered (every prefix has at least as many download completions as
upload completions, and upload as cleanup, on top of the starting state's
slack).  `UpdateStats` itself enforces no ordering, so the proviso is
necessary — see the counterexample. -/
theorem claim_C4 :
    ∀ (s : SyncState) (now : GoTime) (jobs : List FileJob),
      Inv s → (∀ n, n ≤ jobs.length → pipelineOrdered s (jobs.take n)) →
      ∀ n, n ≤ jobs.length → Inv (runUpdates s now (jobs.take n)) := by
  intro s now jobs hInv hOrd n hn
  obtain ⟨hD, hU, hC⟩ := runUpdates_counters now (jobs.take n) s
  obtain ⟨h1, h2⟩ := hOrd n hn
  exact ⟨by rw [hU, hD]; exact h1, by rw [hC, hU]; exact h2⟩

/-- Claim C4 counterexample: from the all-zero state (which satisfies the
invariant), a single update whose job completed an upload — an interleaving
the claim quantifies over — leaves `Uploaded = 1 > 0 = Downloaded`,
violating the invariant. -/
theorem claim_C4_counterexample :
    Inv zeroState
    ∧ ¬ Inv (UpdateStats zeroState (mkJob 1 .StateUploaded) ⟨0, 0⟩) := by
  decide

/-- Witness for claim C4 at a concrete pipeline-ordered batch. -/
theorem claim_C4_witness :
    Inv (runUpdates zeroState ⟨0, 0⟩ (c4Jobs.take 3)) :=
  claim_C4 zeroState ⟨0, 0⟩ c4Jobs (by decide) (by decide) 3 (by decide)

/-! ## Checkpoint-loading claims C5 and C10 -/

/-- Claim C5 (amended): when the search matches no messages (and likewise
when the reply has an unexpected shape), `LoadState` returns the
`"no saved state found"` outcome — which *is* an error, not a non-error
result, though it is a different error value from the malformed-format and
parse-failure errors. -/
theorem claim_C5 :
    ∀ u : GoStr → Option StateDoc,
      LoadState u (.messages []) = .error .noSavedState
      ∧ LoadState u .otherKind = .error .noSavedState
      ∧ LoadErr.noSavedState ≠ LoadErr.invalidFormat
      ∧ LoadErr.noSavedState ≠ LoadErr.parseFailed :=
  fun u => ⟨rfl, rfl, by decide, by decide⟩

/-- Claim C5 counterexample: on a zero-match search result, `LoadState`'s
outcome is `Except.error` — not the claimed non-error outcome (its `isOk` is
false) — though the error value is distinct from the malformed-document
error. -/
theorem claim_C5_counterexample :
    LoadState (invUnmarshal (saveDoc zeroState 0)) (.messages []) = .error .noSavedState
    ∧ (LoadState (invUnmarshal (saveDoc zeroState 0)) (.messages [])).isOk = false
    ∧ LoadErr.noSavedState ≠ LoadErr.invalidFormat := by
  refine ⟨rfl, rfl, by decide⟩

/-- Claim C10: when the message text does not contain `"```json\n"`,
`indexOf` yields `start = -1` and the slice `text[start+8:]` — evaluated
before `start` is checked — has low bound 7: for texts of length at least 7
the invalid-format error is returned, but for shorter texts the slice
bound is out of range, a Go runtime panic. -/
theorem claim_C10 :
    ∀ text : GoStr, indexOf text mJson = -1 →
      (7 ≤ text.length → extractJson text = .error .invalidFormat)
      ∧ (text.length < 7 → extractJson text = .error .panicSlice) := by
  intro text h
  constructor
  · intro hlen
    simp only [extractJson, h]
    rw [if_neg (by push_cast; omega)]
    rw [if_pos (Or.inl trivial)]
  · intro hlen
    simp only [extractJson, h]
    rw [if_pos (by push_cast; omega)]

/-- Witness for claim C10 at two concrete marker-free texts, one of each
length class. -/
theorem claim_C10_witness :
    (extractJson (strBytes "1234567") = .error .invalidFormat)
    ∧ (extractJson (strBytes "12345") = .error .panicSlice) :=
  ⟨(claim_C10 (strBytes "1234567") (by decide)).1 (by decide),
   (claim_C10 (strBytes "12345") (by decide)).2 (by decide)⟩

/-! ## Claim C6: the string-built serializer corrupts numeric fields -/

/-- Every byte of `natDecAux` is an ASCII digit. -/
lemma natDecAux_digits : ∀ fuel n b, b ∈ natDecAux n fuel → 0x30 ≤ b ∧ b ≤ 0x39 := by
  intro fuel
  induction fuel with
  | zero =>
    intro n b hb
    simp [natDecAux] at hb
  | succ k ih =>
    intro n b hb
    rw [natDecAux] at hb
    split at hb
    · next h =>
      simp only [List.mem_singleton] at hb
      omega
    · next h =>
      rcases List.mem_append.mp hb with hb' | hb'
      · exact ih (n / 10) b hb'
      · simp only [List.mem_singleton] at hb'
        have := Nat.mod_lt n (y := 10) (by norm_num)
        omega

/-- Every byte of `natDecDigits n` is an ASCII digit. -/
lemma natDecDigits_digits : ∀ n, ∀ b ∈ natDecDigits n, 0x30 ≤ b ∧ b ≤ 0x39 :=
  fun n b hb => natDecAux_digits (n + 1) n b hb

/-- The `natDecDigits` never returns the empty list. -/
lemma natDecDigits_ne_nil (n : Nat) : natDecDigits n ≠ [] := by
  rw [natDecDigits, natDecAux]
  split <;> simp

/-- The first byte of a decimal rendering is a minus sign or a digit, hence
at most `0x39`. -/
lemma decimalBytes_head_le {v : Int} {d : Nat} {t : GoStr}
    (h : decimalBytes v = d :: t) : d ≤ 0x39 := by
  unfold decimalBytes at h
  split at h
  · injection h with h1 h2
    omega
  · have : d ∈ natDecDigits v.toNat := by
      rw [h]
      exact List.mem_cons_self d t
    exact (natDecDigits_digits _ d this).2

/-- The second byte of a decimal rendering is always a digit. -/
lemma decimalBytes_second_digit {v : Int} {d d₂ : Nat} {t : GoStr}
    (h : decimalBytes v = d :: d₂ :: t) : 0x30 ≤ d₂ ∧ d₂ ≤ 0x39 := by
  unfold decimalBytes at h
  split at h
  · injection h with h1 h2
    exact natDecDigits_digits _ d₂ (by rw [h2]; exact List.mem_cons_self d₂ t)
  · exact natDecDigits_digits v.toNat d₂ (by rw [h]; simp)

/-- The `decimalBytes` never returns the empty list. -/
lemma decimalBytes_ne_nil (v : Int) : decimalBytes v ≠ [] := by
  unfold decimalBytes
  split
  · simp
  · exact natDecDigits_ne_nil _

/-- A UTF-8 encoding is a single byte below `0x80` or starts with a lead
byte of at least `0xC0`. -/
lemma utf8Encode_cases (c : Nat) :
    (c < 0x80 ∧ utf8Encode c = [c]) ∨ ∃ a t, utf8Encode c = a :: t ∧ 0xC0 ≤ a := by
  by_cases h1 : c < 0x80
  · left
    exact ⟨h1, by rw [utf8Encode, if_pos h1]⟩
  · right
    by_cases h2 : c < 0x800
    · exact ⟨0xC0 + c / 64, [0x80 + c % 64],
        by rw [utf8Encode, if_neg h1, if_pos h2], by omega⟩
    · by_cases h3 : c < 0x10000
      · exact ⟨0xE0 + c / 4096, [0x80 + c / 64 % 64, 0x80 + c % 64],
          by rw [utf8Encode, if_neg h1, if_neg h2, if_pos h3], by omega⟩
      · exact ⟨0xF0 + c / 262144, [0x80 + c / 4096 % 64, 0x80 + c / 64 % 64, 0x80 + c % 64],
          by rw [utf8Encode, if_neg h1, if_neg h2, if_neg h3], by omega⟩

/-- The `string(rune(v))` is either a single byte below `0x80` or a multi-byte
UTF-8 sequence whose first byte is at least `0xC0`. -/
lemma runeStr_cases (v : Int) :
    (∃ c, runeStr v = [c] ∧ c < 0x80) ∨ ∃ a t, runeStr v = a :: t ∧ 0xC0 ≤ a := by
  unfold runeStr
  split
  · right
    exact ⟨0xEF, [0xBF, 0xBD], by decide, by norm_num⟩
  · rcases utf8Encode_cases v.toNat with ⟨h1, h2⟩ | ⟨a, t, h2, h3⟩
    · exact Or.inl ⟨v.toNat, h2, h1⟩
    · exact Or.inr ⟨a, t, h2, h3⟩

/-- When the decimal rendering of `v` differs from `string(rune(v))` (which
is always the case), the decimal rendering does not occur at the position
where `ToJSON` wrote `string(rune(v))`, whenever the field is followed by a
comma byte. -/
lemma decimal_not_prefix_of_comma {v : Int} {suf : GoStr}
    (hsuf : suf.head? = some 0x2C) (hne : decimalBytes v ≠ runeStr v) :
    ¬ decimalBytes v <+: runeStr v ++ suf := by
  intro hpre
  rcases runeStr_cases v with ⟨c, hc, hclt⟩ | ⟨a, t, ha, hage⟩
  · rw [hc] at hpre hne
    rcases hd : decimalBytes v with - | ⟨d, ds⟩
    · exact decimalBytes_ne_nil v hd
    rw [hd] at hpre hne
    rw [List.singleton_append, List.cons_prefix_cons] at hpre
    obtain ⟨rfl, hds⟩ := hpre
    rcases hds2 : ds with - | ⟨d₂, ds'⟩
    · rw [hds2] at hne
      exact hne rfl
    · rw [hds2] at hds
      rcases suf with - | ⟨s0, suf'⟩
      · exact absurd hsuf (by simp)
      · have hs0 : s0 = 0x2C := by
          simpa using hsuf
        rw [List.cons_prefix_cons] at hds
        obtain ⟨h2, -⟩ := hds
        have := decimalBytes_second_digit (hds2 ▸ hd)
        omega
  · rw [ha] at hpre
    rcases hd : decimalBytes v with - | ⟨d, ds⟩
    · exact decimalBytes_ne_nil v hd
    rw [hd] at hpre
    rw [List.cons_append, List.cons_prefix_cons] at hpre
    obtain ⟨rfl, -⟩ := hpre
    have := decimalBytes_head_le hd
    omega

/-- The `ToJSON`'s output splits at each numeric field as prefix, rendered
value, suffix. -/
lemma toJSON_split (s : SyncState) (f : JField) :
    SyncState.toJSON s = jfieldPre s f ++ (runeStr (jfieldVal s f) ++ jfieldSuf s f) := by
  cases f <;> simp [SyncState.toJSON, jfieldPre, jfieldSuf, jfieldVal, List.append_assoc]

/-- The literal chunk after `channel_id` starts with a comma. -/
lemma jA1_head : jA1.head? = some 0x2C := by decide

/-- The literal chunk after `last_message_id` starts with a comma. -/
lemma jA3_head : jA3.head? = some 0x2C := by decide

/-- The literal chunk after `total_files` starts with a comma. -/
lemma jA4_head : jA4.head? = some 0x2C := by decide

/-- The literal chunk after `downloaded` starts with a comma. -/
lemma jA5_head : jA5.head? = some 0x2C := by decide

/-- The literal chunk after `uploaded` starts with a comma. -/
lemma jA6_head : jA6.head? = some 0x2C := by decide

/-- The literal chunk after `cleaned` starts with a comma. -/
lemma jA7_head : jA7.head? = some 0x2C := by decide

/-- The literal chunk after `failed` starts with a comma. -/
lemma jA8_head : jA8.head? = some 0x2C := by decide

/-- The literal chunk after `total_size_gb` starts with a comma. -/
lemma jA9_head : jA9.head? = some 0x2C := by decide

/-- Every numeric field of `ToJSON` is followed by a comma byte. -/
lemma jfieldSuf_head (s : SyncState) (f : JField) :
    (jfieldSuf s f).head? = some 0x2C := by
  cases f <;>
    simp [jfieldSuf, List.head?_append, jA1_head, jA3_head, jA4_head, jA5_head,
      jA6_head, jA7_head, jA8_head, jA9_head]

/-- Claim C6: `ToJSON` renders each numeric field with `string(rune(v))`;
whenever the decimal rendering of the field's value differs from that byte
sequence (which `claim_C6_witness` shows happens already at zero, and which
holds for every value), the document does not contain the decimal
representation of the value at the field's position, so it cannot parse
back to the original counters. -/
theorem claim_C6 :
    ∀ (s : SyncState) (f : JField),
      decimalBytes (jfieldVal s f) ≠ runeStr (jfieldVal s f) →
      SyncState.toJSON s = jfieldPre s f ++ (runeStr (jfieldVal s f) ++ jfieldSuf s f)
      ∧ ¬ decimalBytes (jfieldVal s f) <+:
          List.drop (jfieldPre s f).length (SyncState.toJSON s) := by
  intro s f hne
  have hsplit := toJSON_split s f
  refine ⟨hsplit, ?_⟩
  rw [hsplit, List.drop_left]
  exact decimal_not_prefix_of_comma (jfieldSuf_head s f) hne

/-- Witness for claim C6 at the all-zero state and the `downloaded` field:
the decimal rendering `"0"` (byte `0x30`) differs from `string(rune(0))`
(the NUL byte), and the document lacks the decimal at the field's
position. -/
theorem claim_C6_witness :
    decimalBytes (jfieldVal zeroState .downloaded) ≠ runeStr (jfieldVal zeroState .downloaded)
    ∧ ¬ decimalBytes (jfieldVal zeroState .downloaded) <+:
        List.drop (jfieldPre zeroState .downloaded).length (SyncState.toJSON zeroState) :=
  ⟨by decide, (claim_C6 zeroState .downloaded (by decide)).2⟩

/-! ## Extraction of the payload from a saved state message (claims C1, C2) -/

/-- The `buildStateMessage`, re-associated around the 29-byte lead. -/
lemma buildStateMessage_eq (p rest : GoStr) :
    buildStateMessage p rest
      = stateMsgLead ++ (p ++ (mEnd ++ (strBytes "\n\n" ++ rest))) := by
  simp [buildStateMessage, stateMsgLead, List.append_assoc]

/-- The lead is 29 bytes (4-byte emoji + 15 ASCII + 2 newlines + 8-byte
marker). -/
lemma stateMsgLead_length : stateMsgLead.length = 29 := by decide

/-- The first occurrence of `"```json\n"` in a state message is at byte 21,
whatever the payload: the lead's first backquote is there, and a match
cannot start inside the marker itself. -/
lemma buildMsg_firstMatch_mJson (p rest : GoStr) :
    firstMatch mJson (buildStateMessage p rest) = some 21 := by
  rw [buildStateMessage_eq]
  apply firstMatch_some_iff.mpr
  constructor
  · have hdrop : List.drop 21 (stateMsgLead ++ (p ++ (mEnd ++ (strBytes "\n\n" ++ rest))))
        = List.drop 21 stateMsgLead ++ (p ++ (mEnd ++ (strBytes "\n\n" ++ rest))) := by
      rw [List.drop_append_eq_append_drop, stateMsgLead_length,
        Nat.sub_eq_zero_of_le (by norm_num), List.drop_zero]
    rw [hdrop, show List.drop 21 stateMsgLead = mJson from by decide]
    exact List.prefix_append _ _
  · intro j hj hpre
    have hdropj : List.drop j (stateMsgLead ++ (p ++ (mEnd ++ (strBytes "\n\n" ++ rest))))
        = List.drop j stateMsgLead ++ (p ++ (mEnd ++ (strBytes "\n\n" ++ rest))) := by
      rw [List.drop_append_eq_append_drop, stateMsgLead_length,
        Nat.sub_eq_zero_of_le (by omega), List.drop_zero]
    rw [hdropj] at hpre
    have hlen8 : mJson.length ≤ (List.drop j stateMsgLead).length := by
      rw [List.length_drop, stateMsgLead_length]
      have : mJson.length = 8 := by decide
      omega
    rw [prefix_append_of_length_le hlen8] at hpre
    have hno : ∀ i, i < 21 → ¬ mJson <+: List.drop i stateMsgLead := by decide
    exact hno j hj hpre

/-- With a payload in which no newline is followed by a backquote, the first
occurrence of `"\n```"` at or after the payload's start is exactly at the
payload's end: in-payload occurrences are excluded by the hypothesis and a
straddling occurrence would need a backquote where the closing marker has
its newline. -/
lemma firstMatch_mEnd_after (p y : GoStr) (hp : nlSafe p) :
    firstMatch mEnd (p ++ (mEnd ++ y)) = some p.length := by
  apply firstMatch_some_iff.mpr
  constructor
  · rw [List.drop_left]
    exact List.prefix_append _ _
  · intro j hj hpre
    have hdropj : List.drop j (p ++ (mEnd ++ y)) = List.drop j p ++ (mEnd ++ y) := by
      rw [List.drop_append_eq_append_drop, Nat.sub_eq_zero_of_le (by omega), List.drop_zero]
    rw [hdropj] at hpre
    by_cases hcase : j + 4 ≤ p.length
    · have hlen : mEnd.length ≤ (List.drop j p).length := by
        rw [List.length_drop]
        have : mEnd.length = 4 := by decide
        omega
      rw [prefix_append_of_length_le hlen] at hpre
      exact hp j (List.IsPrefix.trans (by decide) hpre)
    · obtain ⟨u, hu⟩ := hpre
      have hlendrop : (List.drop j p).length = p.length - j := List.length_drop j p
      have e1 : (List.drop j p ++ (mEnd ++ y))[p.length - j]? = some 10 := by
        rw [List.getElem?_append_right (by omega)]
        rw [hlendrop, Nat.sub_self]
        rw [List.getElem?_append_left (by decide)]
        decide
      have e2 : (List.drop j p ++ (mEnd ++ y))[p.length - j]? = some 96 := by
        rw [← hu]
        rw [List.getElem?_append_left (by simp [show mEnd.length = 4 from by decide]; omega)]
        have h96 : ∀ k, 1 ≤ k → k ≤ 3 → mEnd[k]? = some 96 := by decide
        exact h96 _ (by omega) (by omega)
      rw [e1] at e2
      injection e2 with e2
      omega

/-- Length of a state message. -/
lemma buildStateMessage_length (p rest : GoStr) :
    (buildStateMessage p rest).length = 35 + p.length + rest.length := by
  simp only [buildStateMessage, List.length_append]
  have h1 : stateMsgHeader.length = 19 := by decide
  have h2 : (strBytes "\n\n").length = 2 := by decide
  have h3 : mJson.length = 8 := by decide
  have h4 : mEnd.length = 4 := by decide
  omega

/-- Extraction correctness: on a message built by `SaveState` whose payload
has no newline-backquote pair, `LoadState`'s extraction fragment recovers
exactly the payload bytes. -/
lemma extractJson_build (p rest : GoStr) (hp : nlSafe p) :
    extractJson (buildStateMessage p rest) = .ok p := by
  have hidx : indexOf (buildStateMessage p rest) mJson = 21 :=
    indexOf_of_firstMatch (buildMsg_firstMatch_mJson p rest)
  have hlen := buildStateMessage_length p rest
  simp only [extractJson, hidx]
  have hcond : ¬ ((List.length (buildStateMessage p rest) : Int) < 21 + 8) := by
    rw [hlen]
    push_cast
    omega
  rw [if_neg hcond]
  have h29 : ((21 : Int) + 8).toNat = 29 := by decide
  rw [h29]
  have hdrop : List.drop 29 (buildStateMessage p rest)
      = p ++ (mEnd ++ (strBytes "\n\n" ++ rest)) := by
    rw [buildStateMessage_eq, ← stateMsgLead_length, List.drop_left]
  rw [hdrop]
  rw [indexOf_of_firstMatch (firstMatch_mEnd_after p _ hp)]
  have hcond2 : ¬ ((21 : Int) = -1 ∨ (List.length p : Int) = -1) := by
    push_cast
    simp
  rw [if_neg hcond2]
  have htoNat : ((List.length p : Int)).toNat = List.length p := by simp
  rw [htoNat, List.take_left]

/-! ## The marshalled document never contains a newline-backquote pair -/

/-- The `nlSafe` follows from its bounded version (beyond the length the drop is
empty). -/
lemma nlSafe_of_bounded (l : GoStr)
    (h : ∀ j, j < l.length → ¬ [10, 96] <+: List.drop j l) : nlSafe l := by
  intro j hpre
  by_cases hj : j < l.length
  · exact h j hj hpre
  · rw [List.drop_eq_nil_of_le (by omega), List.prefix_nil] at hpre
    simp at hpre

/-- A string with no newline byte at all is `nlSafe`. -/
lemma nlSafe_of_noNl (l : GoStr) (h : ∀ b ∈ l, b ≠ 10) : nlSafe l := by
  intro j hpre
  exact h 10 (List.drop_subset j l (hpre.subset (by simp))) rfl

/-- A string with no newline byte does not end in one. -/
lemma getLast?_ne_of_noNl (l : GoStr) (h : ∀ b ∈ l, b ≠ 10) :
    l.getLast? ≠ some 10 := by
  intro heq
  exact h 10 (List.mem_of_mem_getLast? (by simp [heq])) rfl

/-- The `nlSafe` is preserved by concatenation when the left part does not end
in a newline (so no pair can straddle the boundary). -/
lemma nlSafe_append : ∀ x y : GoStr,
    nlSafe x → nlSafe y → x.getLast? ≠ some 10 → nlSafe (x ++ y) := by
  intro x
  induction x with
  | nil =>
    intro y _ hy _
    simpa using hy
  | cons a t ih =>
    intro y hx hy hlast j hpre
    match j with
    | 0 =>
      rw [List.drop_zero, List.cons_append, List.cons_prefix_cons] at hpre
      obtain ⟨h10, h96⟩ := hpre
      match t with
      | [] =>
        exact hlast (by simp [← h10])
      | b :: t' =>
        rw [List.cons_append, List.cons_prefix_cons] at h96
        obtain ⟨h96b, -⟩ := h96
        apply hx 0
        rw [List.drop_zero]
        exact ⟨t', by rw [← h10, ← h96b]; rfl⟩
    | k + 1 =>
      have hstep : List.drop (k + 1) ((a :: t) ++ y) = List.drop k (t ++ y) := by
        simp [List.cons_append]
      rw [hstep] at hpre
      have ht : nlSafe t := by
        intro i hp
        exact hx (i + 1) (by simpa using hp)
      have htlast : t.getLast? ≠ some 10 := by
        match t with
        | [] => simp
        | b :: t' =>
          rw [← List.getLast?_cons_cons (a := a)]
          exact hlast
      exact ih y ht hy htlast k hpre

/-- Prepending a newline-free value chunk preserves `nlSafe`. -/
lemma nlSafe_chunk_cons (v rest : GoStr) (hv : ∀ b ∈ v, b ≠ 10)
    (hrest : nlSafe rest) : nlSafe (v ++ rest) :=
  nlSafe_append v rest (nlSafe_of_noNl v hv) hrest (getLast?_ne_of_noNl v hv)

/-- Prepending an `nlSafe` literal chunk not ending in a newline preserves
`nlSafe`. -/
lemma nlSafe_lit_cons (c rest : GoStr) (hc : nlSafe c)
    (hlast : c.getLast? ≠ some 10) (hrest : nlSafe rest) : nlSafe (c ++ rest) :=
  nlSafe_append c rest hc hrest hlast

/-- Hex digit bytes are at least ASCII `0`. -/
lemma hexDigitByte_ge (d : Nat) : 0x30 ≤ hexDigitByte d := by
  unfold hexDigitByte
  split <;> omega

/-- Escaping a byte never produces a newline byte. -/
lemma escapeByte_no_nl (b : Nat) : ∀ c ∈ escapeByte b, c ≠ 10 := by
  intro c hc
  unfold escapeByte at hc
  split_ifs at hc with h1 h2 h3 h4 h5 h6
  · simp at hc
    omega
  · simp at hc
    omega
  · simp at hc
    omega
  · simp at hc
    omega
  · simp at hc
    omega
  · simp at hc
    have hx1 := hexDigitByte_ge (b / 16)
    have hx2 := hexDigitByte_ge (b % 16)
    omega
  · simp at hc
    subst hc
    push_neg at h6
    omega

/-- Escaped string content contains no newline byte. -/
lemma escapeJSON_no_nl (s : GoStr) : ∀ c ∈ escapeJSON s, c ≠ 10 := by
  intro c hc
  rw [escapeJSON, List.mem_flatMap] at hc
  obtain ⟨b, -, hb⟩ := hc
  exact escapeByte_no_nl b c hb

/-- A JSON string literal contains no newline byte. -/
lemma jstrBytes_no_nl (s : GoStr) : ∀ c ∈ jstrBytes s, c ≠ 10 := by
  intro c hc
  rw [jstrBytes] at hc
  rcases List.mem_cons.mp hc with rfl | hc'
  · decide
  · rcases List.mem_append.mp hc' with h | h
    · exact escapeJSON_no_nl s c h
    · simp at h
      subst h
      decide

/-- Fractional digit bytes are ASCII digits or larger, never a newline. -/
lemma fracDigitBytes_no_nl : ∀ (k : Nat) (q : ℚ), ∀ b ∈ fracDigitBytes k q, b ≠ 10 := by
  intro k
  induction k with
  | zero =>
    intro q b hb
    simp [fracDigitBytes] at hb
  | succ n ih =>
    intro q b hb
    rw [fracDigitBytes] at hb
    rcases List.mem_cons.mp hb with rfl | hb'
    · omega
    · exact ih _ b hb'

/-- A non-negative decimal rendering contains no newline byte. -/
lemma printQnn_no_nl (q : ℚ) : ∀ b ∈ printQnn q, b ≠ 10 := by
  intro b hb
  rw [printQnn] at hb
  rcases List.mem_append.mp hb with h | h
  · have := natDecDigits_digits _ b h
    omega
  · split at h
    · simp at h
    · rcases List.mem_cons.mp h with rfl | h'
      · decide
      · exact fracDigitBytes_no_nl _ _ b h'

/-- A number rendering contains no newline byte. -/
lemma printQ_no_nl (q : ℚ) : ∀ b ∈ printQ q, b ≠ 10 := by
  intro b hb
  rw [printQ] at hb
  split at hb
  · rcases List.mem_cons.mp hb with rfl | h'
    · decide
    · exact printQnn_no_nl _ b h'
  · exact printQnn_no_nl _ b hb

/-- The marshalled checkpoint document never has a newline byte followed by
a backquote byte: every newline in the rendering is a line break followed by
the two-space indent or the closing brace, and values contain no newline at
all. -/
lemma printDoc_nlSafe (d : StateDoc) : nlSafe (printDoc d) := by
  have heq : printDoc d
      = strBytes "\x7b\n  \"channel_id\": " ++ (printQ d.channel_id ++ (strBytes ",\n  \"channel_name\": " ++ (jstrBytes d.channel_name ++ (strBytes ",\n  \"cleaned\": " ++ (printQ d.cleaned ++ (strBytes ",\n  \"downloaded\": " ++ (printQ d.downloaded ++ (strBytes ",\n  \"elapsed_minutes\": " ++ (printQ d.elapsed_minutes ++ (strBytes ",\n  \"failed\": " ++ (printQ d.failed ++ (strBytes ",\n  \"last_message_id\": " ++ (printQ d.last_message_id ++ (strBytes ",\n  \"status\": " ++ (jstrBytes d.status ++ (strBytes ",\n  \"timestamp\": " ++ (jstrBytes (rfc3339Bytes ⟨d.timestamp, 0⟩) ++ (strBytes ",\n  \"total_files\": " ++ (printQ d.total_files ++ (strBytes ",\n  \"total_size_gb\": " ++ (printQ d.total_size_gb ++ (strBytes ",\n  \"uploaded\": " ++ (printQ d.uploaded ++ (strBytes "\n\x7d")))))))))))))))))))))))) := by
    simp [printDoc, List.append_assoc]
  rw [heq]
  apply nlSafe_lit_cons _ _ (nlSafe_of_bounded _ (by decide)) (by decide)
  apply nlSafe_chunk_cons _ _ (printQ_no_nl _)
  apply nlSafe_lit_cons _ _ (nlSafe_of_bounded _ (by decide)) (by decide)
  apply nlSafe_chunk_cons _ _ (jstrBytes_no_nl _)
  apply nlSafe_lit_cons _ _ (nlSafe_of_bounded _ (by decide)) (by decide)
  apply nlSafe_chunk_cons _ _ (printQ_no_nl _)
  apply nlSafe_lit_cons _ _ (nlSafe_of_bounded _ (by decide)) (by decide)
  apply nlSafe_chunk_cons _ _ (printQ_no_nl _)
  apply nlSafe_lit_cons _ _ (nlSafe_of_bounded _ (by decide)) (by decide)
  apply nlSafe_chunk_cons _ _ (printQ_no_nl _)
  apply nlSafe_lit_cons _ _ (nlSafe_of_bounded _ (by decide)) (by decide)
  apply nlSafe_chunk_cons _ _ (printQ_no_nl _)
  apply nlSafe_lit_cons _ _ (nlSafe_of_bounded _ (by decide)) (by decide)
  apply nlSafe_chunk_cons _ _ (printQ_no_nl _)
  apply nlSafe_lit_cons _ _ (nlSafe_of_bounded _ (by decide)) (by decide)
  apply nlSafe_chunk_cons _ _ (jstrBytes_no_nl _)
  apply nlSafe_lit_cons _ _ (nlSafe_of_bounded _ (by decide)) (by decide)
  apply nlSafe_chunk_cons _ _ (jstrBytes_no_nl _)
  apply nlSafe_lit_cons _ _ (nlSafe_of_bounded _ (by decide)) (by decide)
  apply nlSafe_chunk_cons _ _ (printQ_no_nl _)
  apply nlSafe_lit_cons _ _ (nlSafe_of_bounded _ (by decide)) (by decide)
  apply nlSafe_chunk_cons _ _ (printQ_no_nl _)
  apply nlSafe_lit_cons _ _ (nlSafe_of_bounded _ (by decide)) (by decide)
  apply nlSafe_chunk_cons _ _ (printQ_no_nl _)
  exact nlSafe_of_bounded _ (by decide)
/-! ## Round-trip claims C1 and C2 -/

/-- Go's float→int truncation is the identity on integers. -/
lemma goTrunc_intCast (n : Int) : goTrunc ((n : ℚ)) = n := by
  unfold goTrunc
  split
  · exact Int.ceil_intCast n
  · exact Int.floor_intCast n

/-- The document round-trip restores every stored field exactly, leaves
`StartTime` at the zero value (it is not stored in reconstructible form) and
truncates `LastUpdateTime` to whole seconds (RFC3339 has no sub-second
field). -/
lemma loadDoc_saveDoc (s : SyncState) (now : Int) :
    loadDoc (saveDoc s now)
      = { s with StartTime := ⟨0, 0⟩, LastUpdateTime := ⟨s.LastUpdateTime.sec, 0⟩ } := by
  have hgb : (s.TotalSizeBytes : ℚ) / (1024 * 1024 * 1024) * (1024 * 1024 * 1024)
      = ((s.TotalSizeBytes : ℚ)) := div_mul_cancel₀ _ (by norm_num)
  simp [loadDoc, saveDoc, hgb, goTrunc_intCast]

/-- The `LoadState` on a search reply whose first message is a saved state
message succeeds and returns the reconstruction of the stored document,
provided the `json.Unmarshal` oracle inverts the marshalled bytes. -/
lemma loadState_of_saved (s : SyncState) (now : Int) (progressTail : GoStr)
    (ms : List TgMsg) (u : GoStr → Option StateDoc)
    (hu : u (printDoc (saveDoc s now)) = some (saveDoc s now)) :
    LoadState u (.messages (.msg (SaveStateText s now progressTail) :: ms))
      = .ok (loadDoc (saveDoc s now)) := by
  have hextract : extractJson (SaveStateText s now progressTail)
      = .ok (printDoc (saveDoc s now)) :=
    extractJson_build _ _ (printDoc_nlSafe _)
  simp only [LoadState, hextract, hu]

/-- Claim C2: storing a snapshot with `SaveState`'s message format and
loading the stored text back yields a state equal to the original in all
counters and in `LastMessageID` (with `encoding/json` treated as inverting
the marshalled document, stated as the hypothesis on `u`). -/
theorem claim_C2 :
    ∀ (s : SyncState) (now : Int) (progressTail : GoStr) (ms : List TgMsg)
      (u : GoStr → Option StateDoc),
      u (printDoc (saveDoc s now)) = some (saveDoc s now) →
      LoadState u (.messages (.msg (SaveStateText s now progressTail) :: ms))
          = .ok (loadDoc (saveDoc s now))
      ∧ (loadDoc (saveDoc s now)).TotalFiles = s.TotalFiles
      ∧ (loadDoc (saveDoc s now)).Downloaded = s.Downloaded
      ∧ (loadDoc (saveDoc s now)).Uploaded = s.Uploaded
      ∧ (loadDoc (saveDoc s now)).Cleaned = s.Cleaned
      ∧ (loadDoc (saveDoc s now)).Failed = s.Failed
      ∧ (loadDoc (saveDoc s now)).LastMessageID = s.LastMessageID := by
  intro s now progressTail ms u hu
  refine ⟨loadState_of_saved s now progressTail ms u hu, ?_, ?_, ?_, ?_, ?_, ?_⟩ <;>
    rw [loadDoc_saveDoc]

/-- Witness for claim C2 at a concrete snapshot and inverting oracle. -/
theorem claim_C2_witness :
    LoadState (invUnmarshal (saveDoc c1State 60))
        (.messages [.msg (SaveStateText c1State 60 [])])
      = .ok (loadDoc (saveDoc c1State 60))
    ∧ (loadDoc (saveDoc c1State 60)).TotalFiles = c1State.TotalFiles
    ∧ (loadDoc (saveDoc c1State 60)).Downloaded = c1State.Downloaded
    ∧ (loadDoc (saveDoc c1State 60)).Uploaded = c1State.Uploaded
    ∧ (loadDoc (saveDoc c1State 60)).Cleaned = c1State.Cleaned
    ∧ (loadDoc (saveDoc c1State 60)).Failed = c1State.Failed
    ∧ (loadDoc (saveDoc c1State 60)).LastMessageID = c1State.LastMessageID :=
  claim_C2 c1State 60 [] [] (invUnmarshal (saveDoc c1State 60)) (by simp [invUnmarshal])

/-- Claim C1 (amended): through `SaveState`'s full message format and
`LoadState`'s extraction and reconstruction, the identity
(`ChannelID`/`ChannelName`), the position, all counters,
`TotalSizeBytes` and `Status` round-trip exactly, and `updatedAt` round-trips
to whole-second precision; but `startedAt` does **not** round-trip — the
document stores only `elapsed_minutes` and `LoadState` leaves `StartTime` at
the zero value — so the claim's "every field" fails (see the
counterexample). -/
theorem claim_C1 :
    ∀ (s : SyncState) (now : Int) (progressTail : GoStr) (ms : List TgMsg)
      (u : GoStr → Option StateDoc),
      u (printDoc (saveDoc s now)) = some (saveDoc s now) →
      LoadState u (.messages (.msg (SaveStateText s now progressTail) :: ms))
          = .ok (loadDoc (saveDoc s now))
      ∧ loadDoc (saveDoc s now)
          = { s with StartTime := ⟨0, 0⟩, LastUpdateTime := ⟨s.LastUpdateTime.sec, 0⟩ }
      ∧ (loadDoc (saveDoc s now)).ChannelID = s.ChannelID
      ∧ (loadDoc (saveDoc s now)).ChannelName = s.ChannelName
      ∧ (loadDoc (saveDoc s now)).TotalSizeBytes = s.TotalSizeBytes
      ∧ (loadDoc (saveDoc s now)).Status = s.Status
      ∧ (loadDoc (saveDoc s now)).LastUpdateTime.sec = s.LastUpdateTime.sec
      ∧ (loadDoc (saveDoc s now)).StartTime = ⟨0, 0⟩ := by
  intro s now progressTail ms u hu
  refine ⟨loadState_of_saved s now progressTail ms u hu, loadDoc_saveDoc s now,
    ?_, ?_, ?_, ?_, ?_, ?_⟩ <;> rw [loadDoc_saveDoc]

/-- Claim C1 counterexample: at a snapshot whose `StartTime` is second 60,
the full save→load pipeline succeeds but the reconstructed state's
`StartTime` differs from the original — the "every field round-trips"
statement is false at this input. -/
theorem claim_C1_counterexample :
    LoadState (invUnmarshal (saveDoc c1State 60))
        (.messages [.msg (SaveStateText c1State 60 [])])
      = .ok (loadDoc (saveDoc c1State 60))
    ∧ (loadDoc (saveDoc c1State 60)).StartTime ≠ c1State.StartTime := by
  constructor
  · exact loadState_of_saved c1State 60 [] [] (invUnmarshal (saveDoc c1State 60))
      (by simp [invUnmarshal])
  · decide

/-- Witness for (amended) claim C1 at a concrete snapshot and inverting
oracle. -/
theorem claim_C1_witness :
    LoadState (invUnmarshal (saveDoc c1State 60))
        (.messages [.msg (SaveStateText c1State 60 [])])
      = .ok (loadDoc (saveDoc c1State 60))
    ∧ loadDoc (saveDoc c1State 60)
        = { c1State with
              StartTime := ⟨0, 0⟩
              LastUpdateTime := ⟨c1State.LastUpdateTime.sec, 0⟩ }
    ∧ (loadDoc (saveDoc c1State 60)).ChannelID = c1State.ChannelID
    ∧ (loadDoc (saveDoc c1State 60)).ChannelName = c1State.ChannelName
    ∧ (loadDoc (saveDoc c1State 60)).TotalSizeBytes = c1State.TotalSizeBytes
    ∧ (loadDoc (saveDoc c1State 60)).Status = c1State.Status
    ∧ (loadDoc (saveDoc c1State 60)).LastUpdateTime.sec = c1State.LastUpdateTime.sec
    ∧ (loadDoc (saveDoc c1State 60)).StartTime = ⟨0, 0⟩ :=
  claim_C1 c1State 60 [] [] (invUnmarshal (saveDoc c1State 60)) (by simp [invUnmarshal])

end TdlSync
